import Mathlib

/-!
Shallow embedding of the `proxyd` frontend (package `frontend`): the backend
registry of the reverse proxy, its least-connections selection, the Kubernetes
pod event handlers, the bootstrap prober and the cutover switch, together with
proofs and refutations of the specified properties.

Go `map[string]*backend.Backend` is modelled as a list of backends keyed by
`uid`; because a Go map is iterated in an unspecified order, every mutating
operation that recomputes the cached selection takes the iteration order used
by that recomputation as an explicit argument (a list that must be a
permutation of the map's entries).  `Connections` is a Go `uint32`, modelled
as `Nat` with wrap-around on increment.
-/

namespace Proxyd

/-- Go `backend.Backend`: UID, address and live connection count. -/
structure Backend where
  uid : String
  addr : String
  connections : Nat
deriving DecidableEq, Repr

/-- Go `math.MaxUint32`, the initial value of `least` in `setCurrent`. -/
def u32Max : Nat := 2 ^ 32 - 1

/-- Modulus for `uint32` arithmetic on the connection count. -/
def u32Mod : Nat := 2 ^ 32

/-- Go `ReverseProxy`: the backends map, the cached current selection, the
bootstrap endpoints slice (`none` models a nil slice) and the number of times
the bootstrap cancellation function has been invoked. -/
structure ReverseProxy where
  backends : List Backend
  current : Option Backend
  endpoints : Option (List String)
  cancelCalls : Nat
deriving DecidableEq, Repr

/-- Map lookup `r.backends[uid]`. -/
def lookupB (bs : List Backend) (uid : String) : Option Backend :=
  bs.find? (fun b => b.uid = uid)

/-- One iteration of the loop body of `setCurrent`: the `switch` selects `b`
when `b.Connections == 0` (fallthrough) or `b.Connections < least`. -/
def scStep (acc : Nat × Option Backend) (b : Backend) : Nat × Option Backend :=
  if b.connections = 0 ∨ b.connections < acc.1 then (b.connections, some b) else acc

/-- Go `setCurrent`, iterating the backends map in the order `ord` starting from
`least = math.MaxUint32`; when no backend is selected the previous cached
value `cur` is left in place. -/
def setCurrentFold (ord : List Backend) (cur : Option Backend) : Option Backend :=
  (ord.foldl scStep (u32Max, cur)).2

/-- The registry mutations guarded by the proxy mutex. -/
inductive Op where
  | add (uid addr : String)
  | del (uid : String)
  | inc (uid : String)
  | dec (uid : String)
deriving DecidableEq, Repr

/-- The map contents after a mutation, paired with whether the mutation calls
`setCurrent` (AddBackend skips it for a duplicate uid; IncrementBackend and
DecrementBackend skip it on their early returns; DeleteBackend always runs
it). -/
def mutate (r : ReverseProxy) : Op → List Backend × Bool
  | .add uid addr =>
      if (lookupB r.backends uid).isSome then (r.backends, false)
      else (r.backends ++ [⟨uid, addr, 0⟩], true)
  | .del uid => (r.backends.filter (fun b => b.uid ≠ uid), true)
  | .inc uid =>
      if (lookupB r.backends uid).isSome then
        (r.backends.map (fun b =>
          if b.uid = uid then { b with connections := (b.connections + 1) % u32Mod } else b), true)
      else (r.backends, false)
  | .dec uid =>
      match lookupB r.backends uid with
      | none => (r.backends, false)
      | some b =>
          if b.connections = 0 then (r.backends, false)
          else (r.backends.map (fun x =>
            if x.uid = uid then { x with connections := x.connections - 1 } else x), true)

/-- Apply one registry operation; `ord` is the iteration order the Go map
yields to `setCurrent` for this mutation. -/
def applyOp (r : ReverseProxy) (op : Op) (ord : List Backend) : ReverseProxy :=
  let m := mutate r op
  { r with
    backends := m.1
    current := if m.2 then setCurrentFold ord r.current else r.current }

/-- Run a sequence of operations, each with its iteration order. -/
def runOps (r : ReverseProxy) (t : List (Op × List Backend)) : ReverseProxy :=
  t.foldl (fun s p => applyOp s p.1 p.2) r

/-- A trace is valid when every step's iteration order is a permutation of the
map contents after that step's mutation. -/
def ValidTrace : ReverseProxy → List (Op × List Backend) → Prop
  | _, [] => True
  | r, p :: rest =>
      p.2.Perm (mutate r p.1).1 ∧ ValidTrace (applyOp r p.1 p.2) rest

instance : DecidablePred (fun t => ValidTrace r t) := by
  intro t
  induction t generalizing r with
  | nil => exact isTrue trivial
  | cons p rest ih =>
      have : Decidable (p.2.Perm (mutate r p.1).1 ∧ ValidTrace (applyOp r p.1 p.2) rest) := by
        have h2 := ih (r := applyOp r p.1 p.2)
        exact instDecidableAnd
      exact this

/-- The registry of a freshly constructed proxy: no backends, no cached
selection; the bootstrap endpoints slice is nil for registry-only scenarios. -/
def r0 : ReverseProxy := ⟨[], none, none, 0⟩

/-! ### Connection proxy (`Listen`, `proxyConnection`) -/

/-- Outcome of one `l.Accept()` call: a connection, or an error which is or is
not a `net.Error` and is or is not `Temporary()`.  On error the returned
connection is nil. -/
inductive AcceptOutcome where
  | ok (connId : Nat)
  | err (isNetError : Bool) (temporary : Bool)
deriving DecidableEq, Repr

/-- What one iteration of the accept loop does next. -/
inductive LoopAct where
  | dispatch (conn : Option Nat)
  | skipIter
  | terminate
deriving DecidableEq, Repr

/-- The body of the `for` loop in `Listen`: a temporary `net.Error` hits
`continue`; every other outcome (including a failed accept, whose connection
is nil) falls through to `go r.proxyConnection(conn)`.  No branch leaves the
loop. -/
def listenStep : AcceptOutcome → LoopAct
  | .ok c => .dispatch (some c)
  | .err ne temp => if ne && temp then .skipIter else .dispatch none

/-- Result of `proxyConnection` on an accepted client connection. -/
inductive ProxyOutcome where
  | closedNoBackend
  | closedDialFail
  | proxied (uid : String)
deriving DecidableEq, Repr

/-- Go `proxyConnection`: read the cached selection; if nil, close the client; on
dial failure, close the client; on success, increment and join.  The second
component counts dial attempts. -/
def proxyConnection (cur : Option Backend) (dialOk : Bool) : ProxyOutcome × Nat :=
  match cur with
  | none => (.closedNoBackend, 0)
  | some b => if dialOk then (.proxied b.uid, 1) else (.closedDialFail, 1)

/-! ### Cutover (`stopBootstrapBackends`) -/

/-- Go `stopBootstrapBackends`: when the endpoints slice is non-nil, invoke the
bootstrap cancellation function and nil the slice. -/
def stopBootstrapBackends (r : ReverseProxy) : ReverseProxy :=
  if r.endpoints.isSome then
    { r with endpoints := none, cancelCalls := r.cancelCalls + 1 }
  else r

/-! ### Pod watch handlers (`AddFunc`, `UpdateFunc`, `DeleteFunc`) -/

/-- The slice of `v1.ContainerStatus` the handlers read. -/
structure ContainerStatus where
  ready : Bool
deriving DecidableEq, Repr

/-- The fields of `v1.Pod` the handlers read. -/
structure Pod where
  uid : String
  name : String
  podIP : String
  labels : List (String × String)
  containerStatuses : List ContainerStatus
deriving DecidableEq, Repr

/-- Go `isAPIServer`: the pod carries label `component=kube-apiserver` or label
`k8s-app=self-hosted-kube-apiserver`. -/
def isAPIServer (pod : Pod) : Bool :=
  (match pod.labels.lookup "component" with
   | some v => v == "kube-apiserver"
   | none => false) ||
  (match pod.labels.lookup "k8s-app" with
   | some v => v == "self-hosted-kube-apiserver"
   | none => false)

/-- Calls a handler makes into the registry / cutover switch. -/
inductive RegCall where
  | addB (uid addr : String)
  | delB (uid : String)
  | fire
deriving DecidableEq, Repr

/-- Go `AddFunc`: ignore non-API-server pods, pods without an IP, and pods with a
not-ready container; otherwise `AddBackend(pod.UID, pod.PodIP)` followed by
`stopBootstrapBackends`.  Returns the new state and the calls made. -/
def addFunc (r : ReverseProxy) (pod : Pod) (ord : List Backend) :
    ReverseProxy × List RegCall :=
  if !isAPIServer pod then (r, [])
  else if pod.podIP = "" then (r, [])
  else if pod.containerStatuses.any (fun cs => !cs.ready) then (r, [])
  else
    (stopBootstrapBackends (applyOp r (.add pod.uid pod.podIP) ord),
     [.addB pod.uid pod.podIP, .fire])

/-- Go `UpdateFunc`: ignore when the old pod is not an API server; if any
container of the new pod is not ready, `DeleteBackend(old.Status.PodIP)`;
otherwise if the pod went from no IP to an IP, `AddBackend(new.UID,
new.Status.PodIP)` and `stopBootstrapBackends`. -/
def updateFunc (r : ReverseProxy) (oldPod newPod : Pod) (ord : List Backend) :
    ReverseProxy × List RegCall :=
  if !isAPIServer oldPod then (r, [])
  else if newPod.containerStatuses.any (fun cs => !cs.ready) then
    (applyOp r (.del oldPod.podIP) ord, [.delB oldPod.podIP])
  else if oldPod.podIP = "" && newPod.podIP ≠ "" then
    (stopBootstrapBackends (applyOp r (.add newPod.uid newPod.podIP) ord),
     [.addB newPod.uid newPod.podIP, .fire])
  else (r, [])

/-- Go `DeleteFunc`: ignore non-API-server pods; otherwise
`DeleteBackend(pod.UID)`. -/
def deleteFunc (r : ReverseProxy) (pod : Pod) (ord : List Backend) :
    ReverseProxy × List RegCall :=
  if !isAPIServer pod then (r, [])
  else (applyOp r (.del pod.uid) ord, [.delB pod.uid])

/-! ### Bootstrap prober (`bootstrap`) -/

/-- Events observed by one bootstrap goroutine: a ticker tick whose probe dial
succeeded or failed, or the context becoming done (cutover fired or the
process context cancelled). -/
inductive ProbeEvent where
  | tick (dialOk : Bool)
  | ctxDone
deriving DecidableEq, Repr

/-- The synthetic identifier of bootstrap task `i`. -/
def bootstrapUid (i : Nat) : String := "bootstrap-" ++ toString i

/-- The loop body of the goroutine `bootstrap` spawns for endpoint `e` with
index `i`: each tick issues `AddBackend(uid, e)` on dial success and
`DeleteBackend(uid)` on dial failure; when the context is done it issues
`DeleteBackend(uid)` and returns.  The result is the sequence of registry
calls the task makes. -/
def bootstrapRun (i : Nat) (e : String) : List ProbeEvent → List RegCall
  | [] => []
  | .tick true :: rest => .addB (bootstrapUid i) e :: bootstrapRun i e rest
  | .tick false :: rest => .delB (bootstrapUid i) :: bootstrapRun i e rest
  | .ctxDone :: _ => [.delB (bootstrapUid i)]

/-- Whether a probe event is the context-done signal. -/
def isDoneEv : ProbeEvent → Bool
  | .ctxDone => true
  | .tick _ => false

/-- The registry call one probe tick produces: AddBackend of the synthetic
backend on dial success, DeleteBackend of it on dial failure. -/
def tickCall (i : Nat) (e : String) : ProbeEvent → RegCall
  | .tick true => .addB (bootstrapUid i) e
  | _ => .delB (bootstrapUid i)

/-! ### Interleaved firing of the cutover switch

`stopBootstrapBackends` holds no lock, so two handlers may interleave its
load of `r.endpoints` with the other's store.  `cancelBootstrap` is a
`context.CancelFunc`; per its contract, calls after the first do nothing, so
its externally visible effect is the one-time closing of the context's done
channel.  We model a cancel call as setting a monotone `cancelled` flag and
count in `deliveries` the closings of the channel, i.e. the transitions of
`cancelled` from `false` to `true`. -/

/-- Local state of one task running `stopBootstrapBackends`: program counter
(0 = about to load `r.endpoints`, 1 = loaded, about to act, 2 = returned) and
the loaded nil-check result. -/
structure Firer where
  pc : Nat
  sawEndpoints : Bool
deriving DecidableEq, Repr

/-- Shared state seen by concurrent firers. -/
structure CutCfg where
  endpoints : Option (List String)
  cancelled : Bool
  deliveries : Nat
  firers : List Firer
deriving DecidableEq, Repr

/-- One atomic step of firer `i`: at pc 0 it loads the nil check of
`r.endpoints`; at pc 1, if the loaded check passed, it calls the (idempotent)
cancel function and stores nil into `r.endpoints`. -/
def fstep (c : CutCfg) (i : Nat) : CutCfg :=
  match c.firers.get? i with
  | none => c
  | some f =>
      if f.pc = 0 then
        { c with firers := c.firers.set i ⟨1, c.endpoints.isSome⟩ }
      else if f.pc = 1 then
        if f.sawEndpoints then
          { endpoints := none
            cancelled := true
            deliveries := c.deliveries + (if c.cancelled then 0 else 1)
            firers := c.firers.set i ⟨2, f.sawEndpoints⟩ }
        else { c with firers := c.firers.set i ⟨2, f.sawEndpoints⟩ }
      else c

/-- Run a schedule (a list of firer indices, each taking one atomic step). -/
def crun (c : CutCfg) (sched : List Nat) : CutCfg := sched.foldl fstep c

/-- Initial configuration: endpoints non-nil, context not cancelled, `n`
concurrent firers all about to run `stopBootstrapBackends`. -/
def cinit (n : Nat) (es : List String) : CutCfg :=
  ⟨some es, false, 0, List.replicate n ⟨0, false⟩⟩

/-- Invariant of interleaved cutover firing: the number of done-channel
closings tracks the cancelled flag; the endpoints slice is nil exactly when
the context is cancelled; and while nothing is cancelled, no firer has
finished and every firer past its load saw a non-nil slice. -/
def CInv (c : CutCfg) : Prop :=
  c.deliveries = (if c.cancelled then 1 else 0) ∧
  (c.cancelled = true ↔ c.endpoints = none) ∧
  (c.cancelled = false →
    ∀ f ∈ c.firers, f.pc ≤ 1 ∧ (f.pc = 1 → f.sawEndpoints = true))

/-! ### Concrete scenarios used in refutations and witnesses -/

/-- Register backend `a`, then delete it again: the registry empties. -/
def c1Trace : List (Op × List Backend) :=
  [(Op.add "a" "10.0.0.1", [⟨"a", "10.0.0.1", 0⟩]), (Op.del "a", [])]

/-- A registry holding the API server pod `u1` at `10.0.0.5`. -/
def c2Reg : ReverseProxy := applyOp r0 (.add "u1" "10.0.0.5") [⟨"u1", "10.0.0.5", 0⟩]

/-- The registered API server pod, all containers ready. -/
def c2OldPod : Pod :=
  ⟨"u1", "kube-apiserver-m1", "10.0.0.5", [("component", "kube-apiserver")], [⟨true⟩]⟩

/-- The same pod after one container became not-ready. -/
def c2NewPod : Pod :=
  ⟨"u1", "kube-apiserver-m1", "10.0.0.5", [("component", "kube-apiserver")], [⟨false⟩]⟩

/-- Two runs of `add "a"; add "b"`, differing only in the map iteration order
of the second recomputation. -/
def c5Trace1 : List (Op × List Backend) :=
  [(Op.add "a" "10.0.0.1", [⟨"a", "10.0.0.1", 0⟩]),
   (Op.add "b" "10.0.0.2", [⟨"a", "10.0.0.1", 0⟩, ⟨"b", "10.0.0.2", 0⟩])]

/-- Same operations as `c5Trace1`, opposite iteration order at the second
step. -/
def c5Trace2 : List (Op × List Backend) :=
  [(Op.add "a" "10.0.0.1", [⟨"a", "10.0.0.1", 0⟩]),
   (Op.add "b" "10.0.0.2", [⟨"b", "10.0.0.2", 0⟩, ⟨"a", "10.0.0.1", 0⟩])]

/-- Register backend `stale`, then delete it: the registry is empty but the
cached selection still holds the deleted backend. -/
def c6Trace : List (Op × List Backend) :=
  [(Op.add "stale" "10.0.0.9", [⟨"stale", "10.0.0.9", 0⟩]), (Op.del "stale", [])]

/-- A qualifying pod with an IP and all containers ready. -/
def c8Pod : Pod :=
  ⟨"p1", "kube-apiserver-m2", "10.0.0.5", [("component", "kube-apiserver")],
   [⟨true⟩, ⟨true⟩]⟩

/-- A pod carrying neither API-server label. -/
def c10Pod : Pod := ⟨"q1", "coredns", "10.0.0.7", [("k8s-app", "kube-dns")], [⟨true⟩]⟩

/-! ### Theorems -/

/-- The accumulator of `setCurrent`'s loop only decreases, ends below every
connection count it saw, and either never fires (leaving the accumulator
untouched) or ends holding some backend of the list together with its
connection count. -/
lemma scFold_spec (ord : List Backend) :
    ∀ (l : Nat) (c : Option Backend),
      (ord.foldl scStep (l, c)).1 ≤ l ∧
      (∀ x ∈ ord, (ord.foldl scStep (l, c)).1 ≤ x.connections) ∧
      (ord.foldl scStep (l, c) = (l, c) ∨
        ∃ b ∈ ord, (ord.foldl scStep (l, c)).2 = some b ∧
          (ord.foldl scStep (l, c)).1 = b.connections) := by
  induction ord with
  | nil =>
      intro l c
      refine ⟨Nat.le_refl l, ?_, Or.inl rfl⟩
      intro x hx
      cases hx
  | cons y rest ih =>
      intro l c
      by_cases h : y.connections = 0 ∨ y.connections < l
      · have hstep : scStep (l, c) y = (y.connections, some y) := by
          simp [scStep, h]
        have hfold : (y :: rest).foldl scStep (l, c) =
            rest.foldl scStep (y.connections, some y) := by
          rw [List.foldl_cons, hstep]
        obtain ⟨ih1, ih2, ih3⟩ := ih y.connections (some y)
        have hyl : y.connections ≤ l := by
          rcases h with h0 | hlt
          · simp [h0]
          · exact Nat.le_of_lt hlt
        refine ⟨?_, ?_, ?_⟩
        · rw [hfold]
          exact Nat.le_trans ih1 hyl
        · intro x hx
          rw [hfold]
          rcases List.mem_cons.mp hx with rfl | hx'
          · exact ih1
          · exact ih2 x hx'
        · rw [hfold]
          right
          rcases ih3 with heq | ⟨b, hb, hb2, hb1⟩
          · exact ⟨y, List.mem_cons_self y rest, by rw [heq], by rw [heq]⟩
          · exact ⟨b, List.mem_cons_of_mem y hb, hb2, hb1⟩
      · have hstep : scStep (l, c) y = (l, c) := by
          simp only [scStep, if_neg h]
        have hfold : (y :: rest).foldl scStep (l, c) = rest.foldl scStep (l, c) := by
          rw [List.foldl_cons, hstep]
        have hly : l ≤ y.connections := by
          rcases Nat.lt_or_ge y.connections l with hlt | hge
          · exact absurd (Or.inr hlt) h
          · exact hge
        obtain ⟨ih1, ih2, ih3⟩ := ih l c
        refine ⟨?_, ?_, ?_⟩
        · rw [hfold]
          exact ih1
        · intro x hx
          rw [hfold]
          rcases List.mem_cons.mp hx with rfl | hx'
          · exact Nat.le_trans ih1 hly
          · exact ih2 x hx'
        · rw [hfold]
          rcases ih3 with heq | ⟨b, hb, hb2, hb1⟩
          · exact Or.inl heq
          · exact Or.inr ⟨b, List.mem_cons_of_mem y hb, hb2, hb1⟩

/-- C1: after every Registry operation, SelectBackend returns a backend of
minimum connection count among registered backends and returns none iff the
registry is empty.  Refuted at a concrete input: deleting the only backend
leaves the registry empty, but `setCurrent`'s loop over an empty map never
resets `r.current`, so SelectBackend still returns the deleted backend. -/
theorem c1_stale_selection_bug :
    ValidTrace r0 c1Trace ∧
    (runOps r0 c1Trace).backends = [] ∧
    (runOps r0 c1Trace).current = some ⟨"a", "10.0.0.1", 0⟩ := by
  decide

/-- C2: on an update event with a not-ready container, the watcher is claimed
to call DeleteBackend with the pod's UID, emptying that pod's entry.  Refuted:
`UpdateFunc` passes `old.Status.PodIP`, not the UID, so the delete misses the
UID-keyed entry and the backend stays registered. -/
theorem c2_delete_wrong_key_bug :
    updateFunc c2Reg c2OldPod c2NewPod [⟨"u1", "10.0.0.5", 0⟩] =
      (c2Reg, [.delB "10.0.0.5"]) ∧
    lookupB (updateFunc c2Reg c2OldPod c2NewPod [⟨"u1", "10.0.0.5", 0⟩]).1.backends "u1" =
      some ⟨"u1", "10.0.0.5", 0⟩ := by
  decide

/-- C3: a temporary accept error is claimed to continue the loop (true), while
a non-transient error is claimed to terminate the loop and propagate, with no
handler dispatched on an errored accept.  Refuted: `Listen` has no exit from
its loop; on a non-temporary error it falls through and dispatches a handler
on the nil connection. -/
theorem c3_accept_error_not_fatal_bug :
    listenStep (.err true true) = .skipIter ∧
    listenStep (.err true false) = .dispatch none ∧
    listenStep (.err false false) = .dispatch none ∧
    listenStep (.err true false) ≠ .terminate := by
  decide

/-- C5 (as stated): with two backends tied at zero connections, the backend
selected by the recomputation depends on the map iteration order, so two runs
of the same operation sequence can return different backends from
SelectBackend: the tie-break is not deterministic. -/
theorem c5_tie_break_counterexample :
    c5Trace1.map Prod.fst = c5Trace2.map Prod.fst ∧
    ValidTrace r0 c5Trace1 ∧
    ValidTrace r0 c5Trace2 ∧
    (runOps r0 c5Trace1).current = some ⟨"b", "10.0.0.2", 0⟩ ∧
    (runOps r0 c5Trace2).current = some ⟨"a", "10.0.0.1", 0⟩ ∧
    (runOps r0 c5Trace1).current ≠ (runOps r0 c5Trace2).current := by
  decide

/-- C6 (as stated): an accepted connection with the registry empty is claimed
to be closed with zero dial attempts.  Refuted: after add-then-delete the
registry is empty but the stale cached selection makes `proxyConnection`
attempt one dial. -/
theorem c6_empty_registry_dial_counterexample :
    ValidTrace r0 c6Trace ∧
    (runOps r0 c6Trace).backends = [] ∧
    (proxyConnection (runOps r0 c6Trace).current true).2 = 1 := by
  decide

/-- C5 (amended): a recomputed selection always holds a backend of minimum
connection count among the registered backends, for every map iteration order
(assuming some backend's count is below `MaxUint32`, the loop's sentinel);
which minimal backend wins a tie, however, depends on the iteration order, so
the tie-break is not deterministic. -/
theorem c5_min_connections (bs ord : List Backend) (cur : Option Backend)
    (hperm : ord.Perm bs) (z : Backend) (hz : z ∈ bs)
    (hzlt : z.connections < u32Max) :
    ∃ b, setCurrentFold ord cur = some b ∧ b ∈ bs ∧
      ∀ x ∈ bs, b.connections ≤ x.connections := by
  have hz' : z ∈ ord := hperm.mem_iff.mpr hz
  obtain ⟨h1, h2, h3⟩ := scFold_spec ord u32Max cur
  rcases h3 with heq | ⟨b, hb, hb2, hb1⟩
  · exfalso
    have hle := h2 z hz'
    rw [heq] at hle
    exact absurd hle (Nat.not_le_of_lt hzlt)
  · refine ⟨b, hb2, hperm.mem_iff.mp hb, ?_⟩
    intro x hx
    have := h2 x (hperm.mem_iff.mpr hx)
    rw [hb1] at this
    exact this

/-- Witness for `c5_min_connections` at a one-backend registry. -/
theorem c5_min_connections_witness :
    ∃ b, setCurrentFold [⟨"a", "10.0.0.1", 0⟩] none = some b ∧
      b ∈ ([⟨"a", "10.0.0.1", 0⟩] : List Backend) ∧
      ∀ x ∈ ([⟨"a", "10.0.0.1", 0⟩] : List Backend), b.connections ≤ x.connections :=
  c5_min_connections [⟨"a", "10.0.0.1", 0⟩] [⟨"a", "10.0.0.1", 0⟩] none
    (List.Perm.refl _) ⟨"a", "10.0.0.1", 0⟩ (by decide) (by decide)

/-- C6 (amended): when SelectBackend returns none the handler closes the
client immediately with zero dial attempts; when the dial of the selected
backend fails the handler closes the client after its single dial; in every
case at most one dial is attempted, with no retry, backoff or queueing. -/
theorem c6_fail_fast (b : Backend) (d : Bool) :
    proxyConnection none d = (.closedNoBackend, 0) ∧
    proxyConnection (some b) false = (.closedDialFail, 1) ∧
    (proxyConnection (some b) d).2 = 1 := by
  cases d <;> simp [proxyConnection]

/-- C7: DecrementConnections never drives a connection count below zero: it
is a no-op (the whole proxy state unchanged) when the identifier is absent or
its count is already zero, and otherwise every backend's count is either
unchanged or decremented from a strictly positive value. -/
theorem c7_decrement_never_negative (r : ReverseProxy) (uid : String)
    (ord : List Backend) :
    (lookupB r.backends uid = none → applyOp r (.dec uid) ord = r) ∧
    (∀ b, lookupB r.backends uid = some b → b.connections = 0 →
      applyOp r (.dec uid) ord = r) ∧
    (∀ b', b' ∈ (applyOp r (.dec uid) ord).backends →
      ∃ b₀ ∈ r.backends, b'.uid = b₀.uid ∧ b'.addr = b₀.addr ∧
        (b'.connections = b₀.connections ∨
          (0 < b₀.connections ∧ b'.connections + 1 = b₀.connections))) := by
  cases hL : lookupB r.backends uid with
  | none =>
      have hm : mutate r (.dec uid) = (r.backends, false) := by
        simp [mutate, hL]
      have hid : applyOp r (.dec uid) ord = r := by
        simp [applyOp, hm]
      refine ⟨fun _ => hid, ?_, ?_⟩
      · intro b hb
        exact absurd hb (by simp)
      · intro b' hb'
        rw [hid] at hb'
        exact ⟨b', hb', rfl, rfl, Or.inl rfl⟩
  | some b0 =>
      by_cases hz : b0.connections = 0
      · have hm : mutate r (.dec uid) = (r.backends, false) := by
          simp [mutate, hL, hz]
        have hid : applyOp r (.dec uid) ord = r := by
          simp [applyOp, hm]
        refine ⟨fun hnone => hid, ?_, ?_⟩
        · intro b _ _
          exact hid
        · intro b' hb'
          rw [hid] at hb'
          exact ⟨b', hb', rfl, rfl, Or.inl rfl⟩
      · have hm : mutate r (.dec uid) =
            (r.backends.map (fun x =>
              if x.uid = uid then { x with connections := x.connections - 1 } else x),
              true) := by
          simp [mutate, hL, hz]
        refine ⟨?_, ?_, ?_⟩
        · intro hnone
          exact absurd hnone (by simp)
        · intro b hb h0
          have : b0 = b := by
            injection hb
          exact absurd h0 (this ▸ hz)
        · intro b' hb'
          have hbs : (applyOp r (.dec uid) ord).backends =
              r.backends.map (fun x =>
                if x.uid = uid then { x with connections := x.connections - 1 } else x) := by
            simp [applyOp, hm]
          rw [hbs] at hb'
          obtain ⟨x, hx, hfx⟩ := List.mem_map.mp hb'
          by_cases hxu : x.uid = uid
          · rw [if_pos hxu] at hfx
            refine ⟨x, hx, ?_, ?_, ?_⟩
            · rw [← hfx]
            · rw [← hfx]
            · rw [← hfx]
              cases hcx : x.connections with
              | zero => exact Or.inl (by simp)
              | succ n => exact Or.inr ⟨Nat.succ_pos n, by simp⟩
          · rw [if_neg hxu] at hfx
            exact ⟨x, hx, by rw [← hfx], by rw [← hfx], Or.inl (by rw [← hfx])⟩

/-- Witness for `c7_decrement_never_negative`: decrementing a zero-count
backend leaves the proxy unchanged. -/
theorem c7_decrement_never_negative_witness :
    applyOp ⟨[⟨"a", "10.0.0.1", 0⟩], some ⟨"a", "10.0.0.1", 0⟩, none, 0⟩
        (.dec "a") [⟨"a", "10.0.0.1", 0⟩] =
      ⟨[⟨"a", "10.0.0.1", 0⟩], some ⟨"a", "10.0.0.1", 0⟩, none, 0⟩ :=
  (c7_decrement_never_negative
      ⟨[⟨"a", "10.0.0.1", 0⟩], some ⟨"a", "10.0.0.1", 0⟩, none, 0⟩ "a"
      [⟨"a", "10.0.0.1", 0⟩]).2.1
    ⟨"a", "10.0.0.1", 0⟩ (by decide) (by decide)

/-- C8: an add event for a qualifying (API-server) pod is ignored — registry
unchanged, cutover not fired — when the pod's IP is empty or some container is
not ready; otherwise the handler calls AddBackend with the pod's UID and IP
and fires the cutover switch. -/
theorem c8_add_event (r : ReverseProxy) (pod : Pod) (ord : List Backend)
    (hapi : isAPIServer pod = true) :
    (pod.podIP = "" → addFunc r pod ord = (r, [])) ∧
    ((∃ cs ∈ pod.containerStatuses, cs.ready = false) →
      addFunc r pod ord = (r, [])) ∧
    (pod.podIP ≠ "" → (∀ cs ∈ pod.containerStatuses, cs.ready = true) →
      addFunc r pod ord =
        (stopBootstrapBackends (applyOp r (.add pod.uid pod.podIP) ord),
          [.addB pod.uid pod.podIP, .fire])) := by
  refine ⟨?_, ?_, ?_⟩
  · intro hip
    simp [addFunc, hapi, hip]
  · intro hcs
    obtain ⟨cs, hcs, hnr⟩ := hcs
    by_cases hip : pod.podIP = ""
    · simp [addFunc, hapi, hip]
    · have hany : pod.containerStatuses.any (fun cs => !cs.ready) = true :=
        List.any_eq_true.mpr ⟨cs, hcs, by simp [hnr]⟩
      simp [addFunc, hapi, hip, hany]
  · intro hip hall
    have hany : pod.containerStatuses.any (fun cs => !cs.ready) = false := by
      rw [List.any_eq_false]
      intro cs hcs
      simp [hall cs hcs]
    simp [addFunc, hapi, hip, hany]

/-- Witness for `c8_add_event`: a ready pod with an IP is registered under its
UID and the cutover switch is fired. -/
theorem c8_add_event_witness :
    addFunc r0 c8Pod [⟨"p1", "10.0.0.5", 0⟩] =
      (stopBootstrapBackends
          (applyOp r0 (.add "p1" "10.0.0.5") [⟨"p1", "10.0.0.5", 0⟩]),
        [.addB "p1" "10.0.0.5", .fire]) :=
  (c8_add_event r0 c8Pod [⟨"p1", "10.0.0.5", 0⟩] (by decide)).2.2
    (by decide) (by decide)

/-- C9: a bootstrap task for endpoint `e` with index `i` issues, for each tick
before the context is done, `AddBackend("bootstrap-<i>", e)` on dial success
and `DeleteBackend("bootstrap-<i>")` on dial failure; at the first done signal
(cutover fired or process context cancelled) it issues one final
`DeleteBackend("bootstrap-<i>")` and makes no further calls. -/
theorem c9_bootstrap_protocol (i : Nat) (e : String) (evs : List ProbeEvent) :
    bootstrapRun i e evs =
      (evs.takeWhile (fun ev => !isDoneEv ev)).map (tickCall i e) ++
        (if evs.any isDoneEv then [.delB (bootstrapUid i)] else []) := by
  induction evs with
  | nil => simp [bootstrapRun]
  | cons ev rest ih =>
      cases ev with
      | tick ok =>
          cases ok <;>
            simp [bootstrapRun, isDoneEv, tickCall, List.takeWhile_cons, ih]
      | ctxDone => simp [bootstrapRun, isDoneEv, List.takeWhile_cons]

/-- C10: a pod event whose pod carries neither the `component=kube-apiserver`
label nor the `k8s-app=self-hosted-kube-apiserver` label is ignored by all
three handlers: no registry mutation, no call, no cutover firing. -/
theorem c10_non_apiserver_ignored (r : ReverseProxy) (p q : Pod)
    (ord : List Backend) (hp : isAPIServer p = false)
    (hq : isAPIServer q = false) :
    addFunc r p ord = (r, []) ∧
    updateFunc r p q ord = (r, []) ∧
    deleteFunc r p ord = (r, []) := by
  have hq' : isAPIServer q = false := hq
  simp [addFunc, updateFunc, deleteFunc, hp]

/-- Witness for `c10_non_apiserver_ignored` at a CoreDNS pod. -/
theorem c10_non_apiserver_ignored_witness :
    addFunc r0 c10Pod [] = (r0, []) ∧
    updateFunc r0 c10Pod c10Pod [] = (r0, []) ∧
    deleteFunc r0 c10Pod [] = (r0, []) :=
  c10_non_apiserver_ignored r0 c10Pod c10Pod [] (by decide) (by decide)

/-- Each interleaved step preserves `CInv`. -/
lemma fstep_inv {c : CutCfg} (i : Nat) (h : CInv c) : CInv (fstep c i) := by
  obtain ⟨h1, h2, h3⟩ := h
  cases hget : c.firers.get? i with
  | none =>
      have hstep : fstep c i = c := by
        unfold fstep
        rw [hget]
      rw [hstep]
      exact ⟨h1, h2, h3⟩
  | some f =>
      have hf : f ∈ c.firers := List.get?_mem hget
      by_cases hpc0 : f.pc = 0
      · have hstep : fstep c i =
            { c with firers := c.firers.set i ⟨1, c.endpoints.isSome⟩ } := by
          unfold fstep
          rw [hget]
          simp [hpc0]
        rw [hstep]
        refine ⟨h1, h2, ?_⟩
        intro hc g hg
        rcases List.mem_or_eq_of_mem_set hg with hg' | rfl
        · exact h3 hc g hg'
        · refine ⟨Nat.le_refl 1, fun _ => ?_⟩
          have hne : c.endpoints ≠ none := by
            intro hn
            have hcanc := h2.mpr hn
            rw [hc] at hcanc
            exact Bool.noConfusion hcanc
          simpa [Option.isSome_iff_ne_none] using hne
      · by_cases hpc1 : f.pc = 1
        · by_cases hsaw : f.sawEndpoints = true
          · have hstep : fstep c i =
                { endpoints := none
                  cancelled := true
                  deliveries := c.deliveries + (if c.cancelled = true then 0 else 1)
                  firers := c.firers.set i ⟨2, f.sawEndpoints⟩ } := by
              unfold fstep
              rw [hget]
              simp [hpc0, hpc1, hsaw]
            rw [hstep]
            refine ⟨?_, by simp, by intro hcon; exact absurd hcon (by simp)⟩
            by_cases hcc : c.cancelled = true
            · simp [hcc, h1]
            · rw [Bool.not_eq_true] at hcc
              simp [hcc, h1]
          · rw [Bool.not_eq_true] at hsaw
            by_cases hcc : c.cancelled = true
            · have hstep : fstep c i =
                  { c with firers := c.firers.set i ⟨2, f.sawEndpoints⟩ } := by
                unfold fstep
                rw [hget]
                simp [hpc0, hpc1, hsaw]
              rw [hstep]
              refine ⟨h1, h2, ?_⟩
              intro hc
              rw [hc] at hcc
              exact absurd hcc (by simp)
            · rw [Bool.not_eq_true] at hcc
              exact absurd ((h3 hcc f hf).2 hpc1) (by simp [hsaw])
        · have hstep : fstep c i = c := by
            unfold fstep
            rw [hget]
            simp [hpc0, hpc1]
          rw [hstep]
          exact ⟨h1, h2, h3⟩

/-- The invariant `CInv` holds along every schedule. -/
lemma crun_inv (sched : List Nat) :
    ∀ c : CutCfg, CInv c → CInv (crun c sched) := by
  induction sched with
  | nil => intro c h; exact h
  | cons i rest ih =>
      intro c h
      exact ih (fstep c i) (fstep_inv i h)

/-- The invariant `CInv` holds initially. -/
lemma cinit_inv (n : Nat) (es : List String) : CInv (cinit n es) := by
  refine ⟨rfl, by simp [cinit], ?_⟩
  intro _ f hf
  have hf0 : f = ⟨0, false⟩ := List.eq_of_mem_replicate hf
  subst hf0
  exact ⟨by simp, by intro h; exact absurd h (by simp)⟩

/-- C4: firing the cutover switch is idempotent — a second sequential firing
changes nothing — and under any interleaving of concurrent firers in which at
least one firer has completed `stopBootstrapBackends`, the cancellation
signal has been delivered to the bootstrap tasks exactly once and the
endpoints slice is nil. -/
theorem c4_cutover_exactly_once :
    (∀ r : ReverseProxy,
      stopBootstrapBackends (stopBootstrapBackends r) = stopBootstrapBackends r) ∧
    (∀ (n : Nat) (es : List String) (sched : List Nat),
      (∃ f ∈ (crun (cinit n es) sched).firers, f.pc = 2) →
      (crun (cinit n es) sched).deliveries = 1 ∧
      (crun (cinit n es) sched).cancelled = true ∧
      (crun (cinit n es) sched).endpoints = none) := by
  constructor
  · intro r
    unfold stopBootstrapBackends
    by_cases h : r.endpoints.isSome = true
    · simp [h]
    · simp [h]
  · intro n es sched hdone
    obtain ⟨f, hf, hpc⟩ := hdone
    obtain ⟨h1, h2, h3⟩ := crun_inv sched (cinit n es) (cinit_inv n es)
    by_cases hc : (crun (cinit n es) sched).cancelled = true
    · exact ⟨by rw [h1, if_pos hc], hc, h2.mp hc⟩
    · exfalso
      simp only [Bool.not_eq_true] at hc
      have := (h3 hc f hf).1
      rw [hpc] at this
      exact absurd this (by simp)

/-- Witness for `c4_cutover_exactly_once`: two firers racing through the
unlocked check-then-cancel interleaving deliver the cancellation once. -/
theorem c4_cutover_exactly_once_witness :
    (crun (cinit 2 ["10.0.0.3"]) [0, 1, 0, 1]).deliveries = 1 ∧
    (crun (cinit 2 ["10.0.0.3"]) [0, 1, 0, 1]).cancelled = true ∧
    (crun (cinit 2 ["10.0.0.3"]) [0, 1, 0, 1]).endpoints = none :=
  c4_cutover_exactly_once.2 2 ["10.0.0.3"] [0, 1, 0, 1] (by decide)

end Proxyd
